import Mathlib

/-!
Verification development for the m3u8-to-mp3 conversion service in
src/main.py.  The service keeps a process-wide dictionary `file_info`
mapping task ids to per-job dictionaries, spawns an external ffmpeg
process per conversion under an asyncio semaphore, and runs a periodic
cleanup loop plus a per-job delayed deletion task.

The embedding below translates the registry-and-disk manipulating code
into pure functions over an explicit system state (registry as an
association list keyed by task id, disk as the list of existing file
paths).  The event loop runs handlers and background tasks one at a
time between await points; each embedded function is the effect of one
such code region on the shared state.
-/

namespace Flo

/-- One value of the per-task dictionary stored in `file_info`
(src/main.py lines 93-98).  The code writes the keys status, progress,
output_path, filename, and sometimes error.  No code path ever writes a
creation_time key, yet the cleanup loop reads it with a default of 0
(line 176); the field is therefore an `Option` that stays `none`. -/
structure Entry where
  status : String
  progress : String
  output_path : String
  filename : String
  error : Option String
  creation_time : Option Nat
  deriving Repr, DecidableEq

/-- The `file_info` dictionary: task id to entry, in insertion order. -/
abbrev Registry := List (String × Entry)

/-- Shared mutable state: the `file_info` dictionary and the set of
files currently existing on disk (as a list of paths). -/
structure SysState where
  registry : Registry
  disk : List String
  deriving Repr, DecidableEq

/-- Dictionary lookup `file_info[k]` (first binding of the key). -/
def lookupTask (tid : String) : Registry → Option Entry
  | [] => none
  | (k, v) :: rest => if k = tid then some v else lookupTask tid rest

/-- Dictionary assignment `file_info[k] = v`: replace the binding in
place when the key exists, else append. -/
def setEntry (k : String) (v : Entry) : Registry → Registry
  | [] => [(k, v)]
  | (k', v') :: rest =>
      if k' = k then (k, v) :: rest else (k', v') :: setEntry k v rest

/-- Dictionary deletion `del file_info[k]`.  Dictionary keys are unique,
so removing every binding of the key is the same as removing the one
binding. -/
def eraseKey (k : String) (r : Registry) : Registry :=
  r.filter (fun p => decide (p.1 ≠ k))

/-- The entry created at submission time by the POST /convert handler
(src/main.py lines 93-98): status processing, progress 0:00:00, the
reserved output path and filename; no error key and no creation_time
key. -/
def initEntry (output_path filename : String) : Entry :=
  { status := "processing", progress := "0:00:00", output_path := output_path,
    filename := filename, error := none, creation_time := none }

/-- Effect of the POST /convert handler on the shared state
(convert_m3u8_to_mp3_endpoint, src/main.py lines 84-107): store a fresh
entry under the new task id.  The handler does not touch the disk. -/
def convert_m3u8_to_mp3_endpoint (task_id output_path filename : String)
    (s : SysState) : SysState :=
  { s with registry := setEntry task_id (initEntry output_path filename) s.registry }

/-- The argument vector built for the external tool (src/main.py lines
41-48).  The input handed to ffmpeg is the submitted URL itself: the
handler passes m3u8_request.url straight through (line 100). -/
def ffmpeg_cmd (input_url output_path : String) : List String :=
  ["ffmpeg", "-i", input_url, "-vn", "-acodec", "libmp3lame", "-ab", "128k",
   output_path]

/-- The source URL that the spawned process receives: the element
following "-i" in the argument vector. -/
def toolSourceURL (request_url output_path : String) : Option String :=
  (ffmpeg_cmd request_url output_path).get? 2

/-- Whether the first list is an initial segment of the second. -/
def leadsWith : List Char → List Char → Bool
  | [], _ => true
  | _ :: _, [] => false
  | p :: ps, c :: cs => (p == c) && leadsWith ps cs

/-- Whether the pattern occurs anywhere in the text. -/
def hasSub : List Char → List Char → Bool
  | [], pat => pat.isEmpty
  | c :: rest, pat => leadsWith pat (c :: rest) || hasSub rest pat

/-- The text after the first occurrence of the pattern, when any. -/
def afterMarker : List Char → List Char → Option (List Char)
  | [], pat => if pat.isEmpty then some [] else none
  | c :: rest, pat =>
      if leadsWith pat (c :: rest) then some ((c :: rest).drop pat.length)
      else afterMarker rest pat

/-- The membership test `time= in line` of src/main.py line 63. -/
def containsMarker (line : String) : Bool := hasSub line.data "time=".data

/-- progress parsing (src/main.py line 65): the token after "time=" up
to the next whitespace. -/
def extract_time (line : String) : String :=
  match afterMarker line.data "time=".data with
  | none => ""
  | some suffix => String.mk (suffix.takeWhile (fun c => c != ' '))

/-- One line of tool output seen by the drain loop (line 63): update the
progress field when the line carries a "time=" marker, else keep it. -/
def updateProgress (prog line : String) : String :=
  if containsMarker line then extract_time line else prog

/-- The drain loop of convert_m3u8_to_mp3 (src/main.py lines 57-66):
while not both pipes are at end of file, read one line from stderr then
one from stdout, updating progress on lines containing "time=".  The
pipes are modelled as the lists of lines still pending; fuel bounds the
number of iterations of the `while True`. -/
def drainLoop : Nat → String → List String → List String →
    String × List String × List String
  | 0, prog, es, os => (prog, es, os)
  | fuel + 1, prog, es, os =>
      if es.isEmpty ∧ os.isEmpty then (prog, es, os)
      else
        match es, os with
        | [], [] => (prog, [], [])
        | [], l2 :: os' => drainLoop fuel (updateProgress prog l2) [] os'
        | l1 :: es', [] => drainLoop fuel (updateProgress prog l1) es' []
        | l1 :: es', l2 :: os' =>
            drainLoop fuel (updateProgress (updateProgress prog l1) l2) es' os'

/-- Run the drain loop to completion: each iteration consumes at least
one pending line, so pending-length fuel suffices. -/
def drainOutputs (prog : String) (es os : List String) :
    String × List String × List String :=
  drainLoop (es.length + os.length) prog es os

/-- `reader.read()` after the loop: whatever is still pending (the drain
loop left the pipes at end of file, so this is the empty string). -/
def readRest (pending : List String) : String := String.join pending

/-- Observable behaviour of one spawned ffmpeg process: the lines it
writes to each pipe and its exit code. -/
structure Proc where
  stdout_lines : List String
  stderr_lines : List String
  returncode : Int
  deriving Repr, DecidableEq

/-- Effect of the background task convert_m3u8_to_mp3 (src/main.py
lines 37-82) on the shared state, given the behaviour of the spawned
process.  The drain loop reads both pipes to end of file; afterwards,
on a non-zero exit code, line 71 reads stderr again - obtaining only
what is still pending - and the job is marked failed with the message
of the RuntimeError raised at line 73.  On a zero exit the job is
marked completed; the external tool has produced the output file at the
reserved path, so that path is on disk.  When the entry is gone (swept
while converting), every dictionary write raises KeyError and the state
is unchanged. -/
def convert_m3u8_to_mp3 (p : Proc) (task_id : String) (s : SysState) : SysState :=
  match lookupTask task_id s.registry with
  | none => s
  | some e =>
      let d := drainOutputs e.progress p.stderr_lines p.stdout_lines
      let e1 := { e with progress := d.1 }
      if p.returncode ≠ 0 then
        let error_message := readRest d.2.1
        let e2 := { e1 with
                    status := "failed"
                    error := some ("Failed to convert HLS to MP3: " ++ error_message) }
        { s with registry := setEntry task_id e2 s.registry }
      else
        let e2 := { e1 with status := "completed" }
        { registry := setEntry task_id e2 s.registry,
          disk := s.disk.insert e.output_path }

/-- Effect of the per-job background task delete_file_after_delay
(src/main.py lines 28-35) once its delay has elapsed.  os.remove
deletes the file when it exists; then `del file_info[filepath]` deletes
the dictionary binding whose KEY equals the file path - the dictionary
is keyed by task id, so when no binding has that key the del raises
KeyError, which the `except OSError` clause does not catch.  When the
file does not exist, os.remove raises OSError, the handler logs it, and
the del never runs. -/
def delete_file_after_delay (filepath : String) (s : SysState) : SysState :=
  if s.disk.contains filepath then
    { registry := eraseKey filepath s.registry, disk := s.disk.erase filepath }
  else s

/-- The expiry test of the cleanup loop (src/main.py line 176):
current_time - info.get(creation_time, 0) > 30 * 60.  No code ever
stores a creation_time, so the default 0 is always used. -/
def expired (now : Nat) (e : Entry) : Bool :=
  (now : Int) - (e.creation_time.getD 0 : Int) > 30 * 60

/-- Body of the per-task deletion in the cleanup loop (src/main.py
lines 177-183): os.remove the output path, then delete the registry
entry; an OSError from os.remove (file already gone) is caught and
logged, leaving the entry in place. -/
def removeTask (tid : String) (s : SysState) : SysState :=
  match lookupTask tid s.registry with
  | none => s
  | some e =>
      if s.disk.contains e.output_path then
        { registry := eraseKey tid s.registry, disk := s.disk.erase e.output_path }
      else s

/-- One tick of the cleanup loop cleanup_old_files (src/main.py lines
172-184): collect the task ids whose expiry test holds, then run the
per-task deletion for each. -/
def cleanup_old_files_tick (now : Nat) (s : SysState) : SysState :=
  let tasks_to_delete := (s.registry.filter (fun p => expired now p.2)).map Prod.fst
  tasks_to_delete.foldl (fun st tid => removeTask tid st) s

/-- A runtime fault escaping a handler: the framework maps an
HTTPException to its status code, and any other uncaught Python
exception (such as NameError) to an internal server error. -/
inductive Fault
  | httpNotFound
  | nameError (missing : String)
  deriving Repr, DecidableEq

/-- The JSON body produced by the status endpoint. -/
structure StatusResponse where
  status : String
  progress : Option String
  download_url : Option String
  error : Option String
  deriving Repr, DecidableEq

/-- The GET /status handler get_conversion_status (src/main.py lines
112-126).  Unknown ids raise HTTPException 404.  The failed branch
returns status and error; the processing branch returns status and
progress.  The completed branch evaluates `request.base_url` at line
118, but the function has no parameter or global named request, so it
raises NameError before returning anything. -/
def get_conversion_status (task_id : String) (r : Registry) :
    Except Fault StatusResponse :=
  match lookupTask task_id r with
  | none => Except.error Fault.httpNotFound
  | some info =>
      if info.status = "completed" then
        Except.error (Fault.nameError "request")
      else if info.status = "failed" then
        Except.ok { status := info.status, progress := none, download_url := none,
                    error := some (info.error.getD "Unknown error") }
      else
        Except.ok { status := info.status, progress := some info.progress,
                    download_url := none, error := none }

/-- What the GET /download handler hands back to the framework. -/
inductive DownloadOutcome
  | fileResponse (path media_type : String)
  | httpError (code : Nat) (detail : String)
  deriving Repr, DecidableEq

/-- The try block of download_file (src/main.py lines 131-148): scan
the registry for an entry with the requested filename; serve the file
when it exists on disk, otherwise raise HTTPException 404 (line 145);
when no entry matches, raise HTTPException 404 (line 148). -/
def download_body (filename : String) (s : SysState) :
    Except (Nat × String) DownloadOutcome :=
  match s.registry.find? (fun p => p.2.filename = filename) with
  | some (_, info) =>
      if s.disk.contains info.output_path then
        Except.ok (DownloadOutcome.fileResponse info.output_path "audio/mpeg")
      else
        Except.error (404, "File not found or expired")
  | none => Except.error (404, "File not found")

/-- The GET /download handler download_file (src/main.py lines
128-151).  The `except Exception` clause at line 149 catches every
exception raised in the try block - including the HTTPExceptions the
block itself raises, since HTTPException derives from Exception - and
re-raises HTTPException 500 with the printed form of the caught
exception as detail. -/
def download_file (filename : String) (s : SysState) : DownloadOutcome :=
  match download_body filename s with
  | Except.ok r => r
  | Except.error (code, detail) =>
      DownloadOutcome.httpError 500
        ("Unexpected error: " ++ toString code ++ ": " ++ detail)

/-- Observable behaviour of the `ffmpeg -version` probe run at startup:
either the spawn succeeds and the process exits zero with a version
line, or it exits non-zero, or the spawn itself raises (tool not
installed). -/
inductive ToolProbe
  | versionOk (first_line : String)
  | nonzeroExit (stderr_text : String)
  | spawnRaises (message : String)
  deriving Repr, DecidableEq

/-- The try block of startup_event (src/main.py lines 157-168): spawn
`ffmpeg -version`; a spawn failure propagates as an exception, and
either exit status is merely logged. -/
def ffmpeg_probe_body : ToolProbe → Except String String
  | ToolProbe.versionOk v => Except.ok ("FFmpeg version: " ++ v)
  | ToolProbe.nonzeroExit e => Except.ok ("FFmpeg not found or error: " ++ e)
  | ToolProbe.spawnRaises m => Except.error m

/-- Result of running the startup hook: whether the cleanup loop was
scheduled and what was logged about the tool probe. -/
structure StartupResult where
  cleanupScheduled : Bool
  logLine : String
  deriving Repr, DecidableEq

/-- The startup hook startup_event (src/main.py lines 153-170).  Line
155 schedules cleanup_old_files unconditionally, before the probe; the
probe runs inside try, and the `except Exception` clause at line 169
turns any exception into a log line, so the hook itself never raises:
the Except value it returns is always ok. -/
def startup_event (t : ToolProbe) : Except String StartupResult :=
  let afterSchedule : StartupResult := { cleanupScheduled := true, logLine := "" }
  match ffmpeg_probe_body t with
  | Except.ok m => Except.ok { afterSchedule with logLine := m }
  | Except.error m =>
      Except.ok { afterSchedule with logLine := "Error checking FFmpeg: " ++ m }

/-- One stream option listed in a fetched manifest. -/
structure Rendition where
  uri : String
  audio_only : Bool
  deriving Repr, DecidableEq

/-- A fetched and parsed stream manifest: its listed renditions, with
uris already made absolute against the manifest base path. -/
structure Manifest where
  renditions : List Rendition
  deriving Repr, DecidableEq

/-- Modelled from the spec: the Source Resolver selection rule of
spec.md section 4.2, which src/main.py does not implement.  Precedence:
an audio-only rendition if present, else the first listed rendition,
else the original playlist URL unchanged.  Stated here only to compare
the specified resolver with what the code actually hands to the tool. -/
def spec_resolve_source (m : Manifest) (original_url : String) : String :=
  match m.renditions.find? (fun r => r.audio_only) with
  | some r => r.uri
  | none =>
      match m.renditions.head? with
      | some r => r.uri
      | none => original_url

/-- The interleaved effects on the shared state, one constructor per
code region that runs between await points: the POST /convert handler,
the conversion background task (with the observed process behaviour),
the per-job delayed deletion task, and one tick of the cleanup loop. -/
inductive Event
  | submit (task_id output_path filename : String)
  | convert (task_id : String) (p : Proc)
  | delayedDelete (filepath : String)
  | sweep (now : Nat)
  deriving Repr

/-- Apply one event to the shared state. -/
def applyEvent : Event → SysState → SysState
  | Event.submit tid out fn, s => convert_m3u8_to_mp3_endpoint tid out fn s
  | Event.convert tid p, s => convert_m3u8_to_mp3 p tid s
  | Event.delayedDelete fp, s => delete_file_after_delay fp s
  | Event.sweep now, s => cleanup_old_files_tick now s

/-- Run a sequence of events from a state. -/
def runEvents (es : List Event) (s : SysState) : SysState :=
  es.foldl (fun st e => applyEvent e st) s

/-- Conditions under which the program actually performs an event:
a submit uses a fresh uuid, so its task id is not yet a key; the
conversion task for a task id runs once, scheduled immediately after
that entry is created with status processing, and nothing else writes a
terminal status for it first, so at its completion the entry - when
still present - has status processing.  Deletion tasks and sweep ticks
run unconditionally. -/
def eventWF : Event → SysState → Prop
  | Event.submit tid _ _, s => lookupTask tid s.registry = none
  | Event.convert tid _, s =>
      match lookupTask tid s.registry with
      | none => True
      | some e => e.status = "processing"
  | Event.delayedDelete _, _ => True
  | Event.sweep _, _ => True

/-- The semaphore bound (src/main.py line 25). -/
def MAX_CONCURRENT_CONVERSIONS : Nat := 3

/-- Where one conversion task stands with respect to the admission
semaphore: not yet admitted (awaiting `async with conversion_semaphore`
at line 38), holding a slot (inside the with block, where the ffmpeg
process is spawned and awaited, lines 39-82), or done (the with block
exited - normally or by exception - and the slot was given back). -/
inductive Phase
  | waiting
  | holding
  | done
  deriving Repr, DecidableEq

/-- Number of tasks currently holding an admission slot. -/
def holdingCount : List Phase → Nat
  | [] => 0
  | p :: rest => (if p = Phase.holding then 1 else 0) + holdingCount rest

/-- Scheduler steps of the admission protocol that src/main.py line 38
builds from asyncio.Semaphore(MAX_CONCURRENT_CONVERSIONS): a new
conversion task arrives awaiting the semaphore; a waiting task is
admitted only while fewer than MAX_CONCURRENT_CONVERSIONS slots are
held (the semaphore contract); a holding task leaves the with block,
which releases its slot on every exit path.  The ffmpeg process of a
task is alive only while its task is in the holding phase, since both
the spawn and the wait sit inside the with block. -/
inductive SemStep : List Phase → List Phase → Prop
  | submit (ts : List Phase) : SemStep ts (ts ++ [Phase.waiting])
  | acquire (ts : List Phase) (i : Nat)
      (hfree : holdingCount ts < MAX_CONCURRENT_CONVERSIONS)
      (hwait : ts.get? i = some Phase.waiting) :
      SemStep ts (ts.set i Phase.holding)
  | release (ts : List Phase) (i : Nat)
      (hhold : ts.get? i = some Phase.holding) :
      SemStep ts (ts.set i Phase.done)

/-- States reachable from server start (no conversion tasks). -/
inductive SemReach : List Phase → Prop
  | init : SemReach []
  | step {ts ts' : List Phase} : SemReach ts → SemStep ts ts' → SemReach ts'

/-- A newly arrived waiting task holds no slot. -/
theorem holdingCount_append_waiting (ts : List Phase) :
    holdingCount (ts ++ [Phase.waiting]) = holdingCount ts := by
  induction ts with
  | nil => rfl
  | cons p rest ih => simp [holdingCount, ih]

/-- Admitting a waiting task raises the held-slot count by one. -/
theorem holdingCount_set_holding (ts : List Phase) (i : Nat)
    (h : ts.get? i = some Phase.waiting) :
    holdingCount (ts.set i Phase.holding) = holdingCount ts + 1 := by
  induction ts generalizing i with
  | nil => simp [List.get?] at h
  | cons p rest ih =>
      cases i with
      | zero =>
          have hp : p = Phase.waiting := by simpa [List.get?] using h
          subst hp
          simp [List.set, holdingCount, Nat.add_comm]
      | succ j =>
          have h' : rest.get? j = some Phase.waiting := by simpa [List.get?] using h
          simp [List.set, holdingCount, ih j h', Nat.add_assoc]

/-- Releasing a held slot lowers the held-slot count by one. -/
theorem holdingCount_set_done (ts : List Phase) (i : Nat)
    (h : ts.get? i = some Phase.holding) :
    holdingCount (ts.set i Phase.done) + 1 = holdingCount ts := by
  induction ts generalizing i with
  | nil => simp [List.get?] at h
  | cons p rest ih =>
      cases i with
      | zero =>
          have hp : p = Phase.holding := by simpa [List.get?] using h
          subst hp
          simp [List.set, holdingCount, Nat.add_comm]
      | succ j =>
          have h' : rest.get? j = some Phase.holding := by simpa [List.get?] using h
          simp [List.set, holdingCount, ← ih j h']
          omega

/-- Appending a task does not disturb the phases of existing tasks. -/
theorem get?_append_of_some (ts : List Phase) (l : List Phase) (i : Nat)
    (a : Phase) (h : ts.get? i = some a) : (ts ++ l).get? i = some a := by
  induction ts generalizing i with
  | nil => simp [List.get?] at h
  | cons p rest ih =>
      cases i with
      | zero => simpa [List.get?] using h
      | succ j =>
          have h' : rest.get? j = some a := by simpa [List.get?] using h
          simpa [List.get?] using ih j h'

/-- Setting one position leaves the others unchanged. -/
theorem get?_set_of_ne (ts : List Phase) (v : Phase) (i j : Nat)
    (h : i ≠ j) : (ts.set i v).get? j = ts.get? j := by
  induction ts generalizing i j with
  | nil => simp [List.set]
  | cons p rest ih =>
      cases i with
      | zero =>
          cases j with
          | zero => exact absurd rfl h
          | succ j' => simp [List.set, List.get?]
      | succ i' =>
          cases j with
          | zero => simp [List.set, List.get?]
          | succ j' =>
              have h' : i' ≠ j' := fun hh => h (by rw [hh])
              simpa [List.set, List.get?] using ih i' j' h'

/-- Setting one position makes it read back the new value, provided the
position exists. -/
theorem get?_set_self (ts : List Phase) (v a : Phase) (i : Nat)
    (h : ts.get? i = some a) : (ts.set i v).get? i = some v := by
  induction ts generalizing i with
  | nil => simp [List.get?] at h
  | cons p rest ih =>
      cases i with
      | zero => simp [List.set, List.get?]
      | succ j =>
          have h' : rest.get? j = some a := by simpa [List.get?] using h
          simpa [List.set, List.get?] using ih j h'

/-- Dictionary lookup after assignment: the assigned key reads back the
assigned value, other keys are unaffected. -/
theorem lookup_setEntry (tid k : String) (v : Entry) (r : Registry) :
    lookupTask tid (setEntry k v r) =
      if tid = k then some v else lookupTask tid r := by
  induction r with
  | nil =>
      by_cases h : tid = k
      · subst h; simp [setEntry, lookupTask]
      · have h' : ¬ k = tid := fun hh => h hh.symm
        simp [setEntry, lookupTask, h, h']
  | cons hd tl ih =>
      obtain ⟨k', v'⟩ := hd
      by_cases hk : k' = k
      · subst hk
        by_cases h2 : tid = k'
        · subst h2; simp [setEntry, lookupTask]
        · have h2' : ¬ k' = tid := fun hh => h2 hh.symm
          simp [setEntry, lookupTask, h2, h2']
      · by_cases h2 : tid = k'
        · have htk : ¬ tid = k := by rw [h2]; exact hk
          have h2' : k' = tid := h2.symm
          simp [setEntry, lookupTask, hk, htk, h2']
        · have h2' : ¬ k' = tid := fun hh => h2 hh.symm
          simp [setEntry, lookupTask, hk, h2', ih]

/-- Dictionary lookup after key deletion: the deleted key reads back
nothing, other keys are unaffected. -/
theorem lookup_eraseKey (tid k : String) (r : Registry) :
    lookupTask tid (eraseKey k r) =
      if tid = k then none else lookupTask tid r := by
  induction r with
  | nil => simp [eraseKey, lookupTask]
  | cons hd tl ih =>
      obtain ⟨k', v'⟩ := hd
      by_cases hk : k' = k
      · subst hk
        by_cases h2 : tid = k'
        · simp [eraseKey, List.filter_cons, lookupTask, h2] at ih ⊢
          exact ih
        · have h2' : ¬ k' = tid := fun hh => h2 hh.symm
          simp [eraseKey, List.filter_cons, lookupTask, h2, h2'] at ih ⊢
          exact ih
      · by_cases h2 : tid = k'
        · have htk : ¬ tid = k := by rw [h2]; exact hk
          have h2' : k' = tid := h2.symm
          simp [eraseKey, List.filter_cons, lookupTask, hk, htk, h2']
        · have h2' : ¬ k' = tid := fun hh => h2 hh.symm
          simp [eraseKey, List.filter_cons, lookupTask, hk, h2'] at ih ⊢
          exact ih

/-- The per-task deletion of the cleanup loop never invents or changes
an entry: a key that reads back a value afterwards read back the same
value before. -/
theorem lookup_removeTask (tid k : String) (s : SysState) (e : Entry)
    (h : lookupTask tid (removeTask k s).registry = some e) :
    lookupTask tid s.registry = some e := by
  unfold removeTask at h
  cases hl : lookupTask k s.registry with
  | none => rw [hl] at h; exact h
  | some e0 =>
      rw [hl] at h
      by_cases hc : s.disk.contains e0.output_path
      · simp only [hc, if_true] at h
        rw [lookup_eraseKey] at h
        by_cases htk : tid = k
        · simp [htk] at h
        · simpa [htk] using h
      · simp only [hc, if_false] at h
        exact h

/-- Same preservation fact for the whole per-tick deletion fold. -/
theorem lookup_sweepFold (tid : String) (l : List String) (s : SysState)
    (e : Entry)
    (h : lookupTask tid (l.foldl (fun st t => removeTask t st) s).registry
          = some e) :
    lookupTask tid s.registry = some e := by
  induction l generalizing s with
  | nil => exact h
  | cons hd tl ih => exact lookup_removeTask tid hd s e (ih (removeTask hd s) h)

/-- The status transitions the code can perform on one registry entry:
stay put, or move from processing to a terminal status. -/
def statusStep (old new : String) : Prop :=
  new = old ∨ (old = "processing" ∧ (new = "completed" ∨ new = "failed"))

/-- Substring test used to state what a recorded error message does not
contain. -/
def containsText (s pat : String) : Bool := hasSub s.data pat.data

/-- Claim C1: a sweep tick removes a job and its file exactly when more
than the 30-minute TTL has passed since submission, leaving younger
jobs untouched.  The code violates this: no code path ever stores a
creation_time, so the expiry test compares against the default 0 and
holds for every job on every tick.  Here a job is submitted at wall
clock 10000 and completes; the sweep tick at wall clock 10060 - only
sixty seconds after submission - removes both the registry entry and
the file. -/
theorem C1_sweep_deletes_sixty_second_old_job :
    (lookupTask "t1" (runEvents [Event.submit "t1" "/tmp/dl/a.mp3" "a.mp3",
        Event.convert "t1" ⟨[], [], 0⟩] ⟨[], []⟩).registry ≠ none)
    ∧ (runEvents [Event.submit "t1" "/tmp/dl/a.mp3" "a.mp3",
        Event.convert "t1" ⟨[], [], 0⟩] ⟨[], []⟩).disk.contains "/tmp/dl/a.mp3" = true
    ∧ (runEvents [Event.submit "t1" "/tmp/dl/a.mp3" "a.mp3",
        Event.convert "t1" ⟨[], [], 0⟩, Event.sweep 10060] ⟨[], []⟩).registry = []
    ∧ (runEvents [Event.submit "t1" "/tmp/dl/a.mp3" "a.mp3",
        Event.convert "t1" ⟨[], [], 0⟩, Event.sweep 10060] ⟨[], []⟩).disk = [] := by
  decide

/-- Claim C2: whenever an output file is deleted, the registry entry
goes with it.  The code violates this in the per-job delayed deletion
task: os.remove succeeds, but `del file_info[filepath]` indexes the
dictionary by the file path while its keys are task ids, so the entry
keyed "t3" survives and still references the deleted file. -/
theorem C2_delayed_delete_keeps_registry_entry :
    delete_file_after_delay "/tmp/dl/c.mp3"
        ⟨[("t3", { status := "completed", progress := "0:00:10",
                   output_path := "/tmp/dl/c.mp3", filename := "c.mp3",
                   error := none, creation_time := none })], ["/tmp/dl/c.mp3"]⟩
      = ⟨[("t3", { status := "completed", progress := "0:00:10",
                   output_path := "/tmp/dl/c.mp3", filename := "c.mp3",
                   error := none, creation_time := none })], []⟩ := by
  decide

/-- Claim C4: GET /status returns the documented shape for every known
task without raising; in particular the completed branch succeeds.  The
code violates the completed branch: line 118 reads a variable named
request that the function does not define, raising NameError.  The
processing branch does return the documented shape. -/
theorem C4_completed_status_branch_raises :
    get_conversion_status "t4"
        [("t4", { status := "completed", progress := "0:01:00",
                  output_path := "/tmp/dl/d.mp3", filename := "d.mp3",
                  error := none, creation_time := none })]
      = Except.error (Fault.nameError "request")
    ∧ get_conversion_status "t5" [("t5", initEntry "/tmp/dl/e.mp3" "e.mp3")]
      = Except.ok { status := "processing", progress := some "0:00:00",
                    download_url := none, error := none } :=
  ⟨rfl, rfl⟩

/-- Claim C5: a download request for an unknown or already-deleted file
yields HTTP 404, never an internal server error.  The code violates
this: both 404 raises sit inside the try block whose `except Exception`
clause catches them and re-raises HTTP 500.  Shown for an unknown
filename and for a known entry whose file is gone from disk. -/
theorem C5_download_not_found_becomes_500 :
    download_file "missing.mp3" ⟨[], []⟩
      = DownloadOutcome.httpError 500 "Unexpected error: 404: File not found"
    ∧ download_file "f.mp3"
        ⟨[("t6", { status := "completed", progress := "0:01:00",
                   output_path := "/tmp/dl/f.mp3", filename := "f.mp3",
                   error := none, creation_time := none })], []⟩
      = DownloadOutcome.httpError 500
          "Unexpected error: 404: File not found or expired" := by
  decide

/-- Claim C6: on a non-zero tool exit the job fails with the captured
diagnostic in its error field.  The code does mark the job failed, but
the drain loop has already read stderr to end of file, so the later
stderr read used to build the message returns nothing: with exit code 1
and stderr line "no such codec", the recorded error is exactly the
fixed prefix and does not contain the diagnostic text. -/
theorem C6_error_message_loses_diagnostic :
    (lookupTask "t7" (runEvents [Event.submit "t7" "/tmp/dl/g.mp3" "g.mp3",
        Event.convert "t7" ⟨[], ["no such codec"], 1⟩] ⟨[], []⟩).registry
      = some { status := "failed", progress := "0:00:00",
               output_path := "/tmp/dl/g.mp3", filename := "g.mp3",
               error := some "Failed to convert HLS to MP3: ",
               creation_time := none })
    ∧ containsText "Failed to convert HLS to MP3: " "no such codec" = false := by
  decide

/-- Claim C7: a file exists on disk iff its job is Completed and not
yet swept.  The code violates this: the delayed deletion task scheduled
at submission removes the output file after thirty minutes but cannot
remove the task-id-keyed registry entry, so afterwards - with no sweep
tick having run in this trace - the registry still holds the job with
status completed while its file is absent. -/
theorem C7_completed_entry_with_missing_file :
    (lookupTask "t8" (runEvents [Event.submit "t8" "/tmp/dl/h.mp3" "h.mp3",
        Event.convert "t8" ⟨[], [], 0⟩,
        Event.delayedDelete "/tmp/dl/h.mp3"] ⟨[], []⟩).registry
      = some { status := "completed", progress := "0:00:00",
               output_path := "/tmp/dl/h.mp3", filename := "h.mp3",
               error := none, creation_time := none })
    ∧ (runEvents [Event.submit "t8" "/tmp/dl/h.mp3" "h.mp3",
        Event.convert "t8" ⟨[], [], 0⟩,
        Event.delayedDelete "/tmp/dl/h.mp3"] ⟨[], []⟩).disk.contains "/tmp/dl/h.mp3"
      = false := by
  decide

/-- A manifest listing a non-audio rendition first and an audio-only
rendition second, used to compare the specified resolver with the code. -/
def exampleManifest : Manifest :=
  { renditions := [{ uri := "http://host/video/hi.m3u8", audio_only := false },
                   { uri := "http://host/audio/only.m3u8", audio_only := true }] }

/-- Claim C3 counterexample: the spec resolver picks the audio-only
rendition of this manifest, but the URL the code hands to the tool for
the submitted playlist URL is that original URL itself - the code never
fetches or parses a manifest - so the claimed precedence fails on this
input. -/
theorem C3_counterexample_no_resolution :
    spec_resolve_source exampleManifest "http://host/master.m3u8"
      = "http://host/audio/only.m3u8"
    ∧ toolSourceURL "http://host/master.m3u8" "/tmp/out.mp3"
      = some "http://host/master.m3u8"
    ∧ ¬ toolSourceURL "http://host/master.m3u8" "/tmp/out.mp3"
        = some (spec_resolve_source exampleManifest "http://host/master.m3u8") := by
  decide

/-- Claim C3 as amended: the source URL handed to the external tool is
always the submitted playlist URL unchanged, for every request; no part
of the code fetches or parses a manifest, so the audio-only and
first-variant precedence cases can never apply and no resolution
failure can occur. -/
theorem C3_tool_input_is_original_url :
    ∀ (url output_path : String), toolSourceURL url output_path = some url := by
  intro url output_path
  rfl

/-- Witness for the amended claim C3 at a concrete input. -/
theorem C3_tool_input_is_original_url_witness :
    toolSourceURL "http://host/master.m3u8" "/tmp/out.mp3"
      = some "http://host/master.m3u8" :=
  C3_tool_input_is_original_url "http://host/master.m3u8" "/tmp/out.mp3"

/-- Claim C10: startup always completes without raising, whatever the
tool probe does, and the cleanup loop is scheduled unconditionally
before the probe: for every probe behaviour the hook returns ok with
the loop scheduled. -/
theorem C10_startup_never_raises :
    ∀ t : ToolProbe, ∃ r : StartupResult,
      startup_event t = Except.ok r ∧ r.cleanupScheduled = true := by
  intro t
  cases t <;> exact ⟨_, rfl, rfl⟩

/-- Witness for claim C10 at a concrete probe behaviour. -/
theorem C10_startup_never_raises_witness :
    ∃ r : StartupResult,
      startup_event (ToolProbe.spawnRaises "No such file or directory")
        = Except.ok r ∧ r.cleanupScheduled = true :=
  C10_startup_never_raises (ToolProbe.spawnRaises "No such file or directory")

/-- Claim C9: the admission limiter bounds the concurrency of external
transcodes.  First conjunct: in every state reachable by the admission
protocol, at most MAX_CONCURRENT_CONVERSIONS tasks hold a slot - and
the ffmpeg process of a task is alive only while it holds a slot, since
spawn and wait both sit inside the `async with` block.  Second
conjunct: a step can raise the held count only from a state with a free
slot, so an extra submission waits until one of the running transcodes
finishes.  Third conjunct: the done phase is absorbing - a task that
has released its slot (the with block releases on success, failure and
cancellation alike) never releases again nor reacquires. -/
theorem C9_admission_limit :
    (∀ ts, SemReach ts → holdingCount ts ≤ MAX_CONCURRENT_CONVERSIONS)
    ∧ (∀ ts ts', SemStep ts ts' → holdingCount ts < holdingCount ts' →
        holdingCount ts < MAX_CONCURRENT_CONVERSIONS)
    ∧ (∀ ts ts' i, SemStep ts ts' → ts.get? i = some Phase.done →
        ts'.get? i = some Phase.done) := by
  refine ⟨?_, ?_, ?_⟩
  · intro ts h
    induction h with
    | init => simp [holdingCount]
    | step hr hs ih =>
        cases hs with
        | submit => rw [holdingCount_append_waiting]; exact ih
        | acquire i hfree hwait =>
            rw [holdingCount_set_holding _ i hwait]
            omega
        | release i hhold =>
            have := holdingCount_set_done _ i hhold
            omega
  · intro ts ts' hs hlt
    cases hs with
    | submit => rw [holdingCount_append_waiting] at hlt; omega
    | acquire i hfree hwait => exact hfree
    | release i hhold =>
        have := holdingCount_set_done _ i hhold
        omega
  · intro ts ts' i hs hdone
    cases hs with
    | submit => exact get?_append_of_some ts [Phase.waiting] i Phase.done hdone
    | acquire j hfree hwait =>
        by_cases hij : j = i
        · subst hij; rw [hdone] at hwait; exact absurd hwait (by simp)
        · rw [get?_set_of_ne ts Phase.holding j i hij]; exact hdone
    | release j hhold =>
        by_cases hij : j = i
        · subst hij; rw [hdone] at hhold; exact absurd hhold (by simp)
        · rw [get?_set_of_ne ts Phase.done j i hij]; exact hdone

/-- Witness for claim C9: a state with one admitted task, reached by a
submission followed by an admission, respects the bound. -/
theorem C9_admission_limit_witness :
    holdingCount [Phase.holding] ≤ MAX_CONCURRENT_CONVERSIONS :=
  C9_admission_limit.1 [Phase.holding]
    (SemReach.step (SemReach.step SemReach.init (SemStep.submit []))
      (SemStep.acquire [Phase.waiting] 0 (by decide) rfl))

/-- Claim C8: job statuses move only forward along the documented state
machine.  First conjunct: a submission installs the fresh entry, whose
status is "processing" - the code realisation of the Queued and Running
stages, which it does not distinguish.  Second conjunct: under the
conditions the program actually runs events in (fresh uuid on submit;
the single conversion task of a job finds its entry, when still
present, in status processing), any event either leaves the status of
an entry unchanged or moves it from processing to completed or failed;
in particular no event leaves a terminal status, no event moves a
status backwards, and - status being one field - no job carries two
terminal states. -/
theorem C8_forward_only_status :
    (∀ tid out fn s,
        lookupTask tid (applyEvent (Event.submit tid out fn) s).registry
          = some (initEntry out fn)
        ∧ (initEntry out fn).status = "processing")
    ∧ (∀ e s, eventWF e s → ∀ tid eo en,
        lookupTask tid s.registry = some eo →
        lookupTask tid (applyEvent e s).registry = some en →
        statusStep eo.status en.status) := by
  constructor
  · intro tid out fn s
    refine ⟨?_, rfl⟩
    simp [applyEvent, convert_m3u8_to_mp3_endpoint, lookup_setEntry]
  · intro e s hwf tid eo en h1 h2
    cases e with
    | submit tid' out fn =>
        simp only [eventWF] at hwf
        simp only [applyEvent, convert_m3u8_to_mp3_endpoint] at h2
        rw [lookup_setEntry] at h2
        by_cases h : tid = tid'
        · subst h; rw [h1] at hwf; exact absurd hwf (by simp)
        · rw [if_neg h] at h2
          rw [h1] at h2
          exact Or.inl (congrArg Entry.status (Option.some.inj h2)).symm
    | convert tid' p =>
        simp only [eventWF] at hwf
        simp only [applyEvent, convert_m3u8_to_mp3] at h2
        cases hl : lookupTask tid' s.registry with
        | none =>
            rw [hl] at h2
            rw [h1] at h2
            exact Or.inl (congrArg Entry.status (Option.some.inj h2)).symm
        | some e0 =>
            rw [hl] at hwf h2
            dsimp only at hwf h2
            have hwf' : e0.status = "processing" := hwf
            by_cases hrc : p.returncode ≠ 0
            · rw [if_pos hrc] at h2
              dsimp only at h2
              rw [lookup_setEntry] at h2
              by_cases h : tid = tid'
              · subst h
                rw [if_pos rfl] at h2
                have heo : eo = e0 := Option.some.inj (h1.symm.trans hl)
                have hen := (Option.some.inj h2).symm
                refine Or.inr ⟨heo ▸ hwf', Or.inr ?_⟩
                rw [hen]
              · rw [if_neg h] at h2
                rw [h1] at h2
                exact Or.inl (congrArg Entry.status (Option.some.inj h2)).symm
            · rw [if_neg hrc] at h2
              dsimp only at h2
              rw [lookup_setEntry] at h2
              by_cases h : tid = tid'
              · subst h
                rw [if_pos rfl] at h2
                have heo : eo = e0 := Option.some.inj (h1.symm.trans hl)
                have hen := (Option.some.inj h2).symm
                refine Or.inr ⟨heo ▸ hwf', Or.inl ?_⟩
                rw [hen]
              · rw [if_neg h] at h2
                rw [h1] at h2
                exact Or.inl (congrArg Entry.status (Option.some.inj h2)).symm
    | delayedDelete fp =>
        simp only [applyEvent, delete_file_after_delay] at h2
        by_cases hc : s.disk.contains fp = true
        · rw [if_pos hc] at h2
          rw [lookup_eraseKey] at h2
          by_cases h : tid = fp
          · simp [h] at h2
          · rw [if_neg h] at h2
            rw [h1] at h2
            exact Or.inl (congrArg Entry.status (Option.some.inj h2)).symm
        · rw [if_neg hc] at h2
          rw [h1] at h2
          exact Or.inl (congrArg Entry.status (Option.some.inj h2)).symm
    | sweep now =>
        simp only [applyEvent, cleanup_old_files_tick] at h2
        have := lookup_sweepFold tid _ s en h2
        rw [h1] at this
        exact Or.inl (congrArg Entry.status (Option.some.inj this)).symm

/-- Witness for claim C8: the conversion task of a concrete processing
job completes it, a legal forward step. -/
theorem C8_forward_only_status_witness :
    statusStep (initEntry "/tmp/dl/w.mp3" "w.mp3").status
      (Entry.status { status := "completed", progress := "0:00:00",
                      output_path := "/tmp/dl/w.mp3", filename := "w.mp3",
                      error := none, creation_time := none }) :=
  C8_forward_only_status.2 (Event.convert "tw" ⟨[], [], 0⟩)
    ⟨[("tw", initEntry "/tmp/dl/w.mp3" "w.mp3")], []⟩ rfl
    "tw" (initEntry "/tmp/dl/w.mp3" "w.mp3")
    { status := "completed", progress := "0:00:00",
      output_path := "/tmp/dl/w.mp3", filename := "w.mp3",
      error := none, creation_time := none } rfl rfl

end Flo
